import Mathlib

/-!
Verification development for the robot_core control system
(jaywang172/medical_robot).

Shallow embedding of the components the claims are about:

* robot_core/state_machine/robot_state_machine.py (RobotState,
  StateTransition, RobotStateMachine.transition_to)
* robot_core/events/event_bus.py (EventBus subscribe / unsubscribe /
  publish / dispatch)
* robot_core/localization/odometry.py (Pose2D.normalize_angle,
  Odometry._update_pose_with_kinematics)
* robot_core/localization/sensor_fusion.py (ExtendedKalmanFilter.get_pose)
* robot_core/navigation/path_planner.py (Grid, AStarPlanner,
  DynamicWindowApproach, PathPlanner.get_next_move)

Modelling conventions: Python floats are embedded as exact real numbers
(ℝ) where trigonometry or square roots occur, and as rationals (ℚ)
elsewhere; Python dicts become association lists; the heapq priority
queue becomes a pop-minimum operation on a list of entries; math.sqrt
inside the A* edge cost and heuristic is abstracted as a function
parameter constrained to be positive on distinct cells, which is the only
property of it the source relies on for the claims below.
-/

namespace RobotCore

/-! ## State machine (robot_state_machine.py) -/

/-- Robot lifecycle states, mirroring the RobotState enum. -/
inductive RobotState where
  | initializing
  | idle
  | navigating
  | mapping
  | charging
  | manualControl
  | calibrating
  | updating
  | emergencyStop
  | error
  | recovering
  | shuttingDown
  | shutdown
  deriving DecidableEq, Repr

/-- State-change reasons, mirroring the StateChangeReason enum. -/
inductive StateChangeReason where
  | systemInit
  | systemShutdown
  | userCommand
  | taskCompleted
  | taskFailed
  | newTaskAssigned
  | obstacleDetected
  | sensorFailure
  | lowBattery
  | emergencyButton
  | autoRecovery
  | manualRecovery
  | calibrationRequired
  | systemUpdate
  deriving DecidableEq, Repr

/-- One record of the state-transition history (StateTransition dataclass).
The payload dict is abstracted by a type parameter. -/
structure StateTransition (α : Type) where
  fromState : RobotState
  toState : RobotState
  reason : StateChangeReason
  timestamp : ℚ
  data : α
  success : Bool

/-- Allowed successor states, mirroring _build_transition_rules. -/
def transitionRules : RobotState → List RobotState
  | .initializing => [.idle, .error, .shuttingDown]
  | .idle => [.navigating, .mapping, .charging, .manualControl, .calibrating,
      .updating, .emergencyStop, .error, .shuttingDown]
  | .navigating => [.idle, .emergencyStop, .error, .charging, .manualControl]
  | .mapping => [.idle, .emergencyStop, .error, .navigating]
  | .charging => [.idle, .emergencyStop, .error]
  | .manualControl => [.idle, .emergencyStop, .error]
  | .calibrating => [.idle, .error, .emergencyStop]
  | .updating => [.idle, .error, .shuttingDown]
  | .emergencyStop => [.idle, .recovering, .error, .shuttingDown]
  | .error => [.recovering, .emergencyStop, .shuttingDown]
  | .recovering => [.idle, .error, .emergencyStop]
  | .shuttingDown => [.shutdown]
  | .shutdown => []

/-- Mutable pieces of RobotStateMachine that transition_to touches.
Validators are per-target-state boolean checks (a validator that raises is
caught and treated as returning false, so Bool captures its outcome). -/
structure StateMachine (α : Type) where
  current : RobotState
  history : List (StateTransition α)
  validators : RobotState → List (RobotState → α → Bool)

/-- RobotStateMachine._is_transition_allowed: membership in the rules table
(dict get with default empty set). -/
def isTransitionAllowed (fromState toState : RobotState) : Bool :=
  decide (toState ∈ transitionRules fromState)

/-- RobotStateMachine._validate_state_conditions: every registered validator
for the target state must return true. -/
def validateStateConditions {α : Type} (m : StateMachine α)
    (state : RobotState) (data : α) : Bool :=
  ((m.validators state).all fun v => v state data)

/-- RobotStateMachine.transition_to, as a pure step on the machine state.
Returns the Python boolean result together with the updated machine.
The exception branch of the source (callbacks raising during the commit
phase) is outside this pure model; both rejection branches and the
successful commit are modelled exactly as in the source: a rejected
transition returns False before any history append, a successful one
appends a success record and updates the current state. -/
def transitionTo {α : Type} (m : StateMachine α) (newState : RobotState)
    (reason : StateChangeReason) (data : α) (ts : ℚ) :
    Bool × StateMachine α :=
  if ¬ isTransitionAllowed m.current newState then (false, m)
  else if ¬ validateStateConditions m newState data then (false, m)
  else
    (true,
      { m with
        current := newState
        history := m.history ++
          [⟨m.current, newState, reason, ts, data, true⟩] })

/-! ## Event bus (event_bus.py) -/

/-- Event kinds, mirroring the EventType enum in events.py. -/
inductive EventType where
  | motorStatus
  | sensorData
  | navigation
  | vision
  | systemState
  | emergency
  deriving DecidableEq, Repr

/-- An event, reduced to the field dispatch looks at (event_type); the
timestamp/source/payload fields do not influence handler selection. -/
structure RobotEvent where
  eventType : EventType

/-- EventBus state: strong subscribers, weak-reference subscribers and the
FIFO dispatch queue (asyncio.Queue preserves insertion order; the numeric
priority is stored but never used for ordering). Handlers are abstracted
by a type β compared by identity. -/
structure EventBus (β : Type) where
  subscribers : EventType → List β
  weakSubscribers : EventType → List β
  queue : List (ℤ × RobotEvent)

/-- EventBus.subscribe: append the handler to the per-kind list (defaultdict
of lists), or to the weak-reference collection when weak_ref is set. -/
def subscribe {β : Type} (b : EventBus β) (k : EventType) (h : β)
    (weakRef : Bool) : EventBus β :=
  if weakRef then
    { b with
      weakSubscribers := fun k' =>
        if k' = k then b.weakSubscribers k ++ [h] else b.weakSubscribers k' }
  else
    { b with
      subscribers := fun k' =>
        if k' = k then b.subscribers k ++ [h] else b.subscribers k' }

/-- EventBus.unsubscribe: remove the first occurrence of the handler from the
per-kind list when present (Python list.remove semantics). -/
def unsubscribe {β : Type} [DecidableEq β] (b : EventBus β) (k : EventType)
    (h : β) : EventBus β :=
  if h ∈ b.subscribers k then
    { b with
      subscribers := fun k' =>
        if k' = k then (b.subscribers k).erase h else b.subscribers k' }
  else b

/-- EventBus.publish: enqueue the (priority, event) pair at the back of the
FIFO queue. -/
def publish {β : Type} (b : EventBus β) (e : RobotEvent) (priority : ℤ) :
    EventBus β :=
  { b with queue := b.queue ++ [(priority, e)] }

/-- The handlers _handle_event invokes for one event: the strong subscribers
of its kind followed by the live weak subscribers (each invoked exactly
once in the fan-out). -/
def allHandlers {β : Type} (b : EventBus β) (k : EventType) : List β :=
  b.subscribers k ++ b.weakSubscribers k

/-- One step of the _process_events loop: pop the front of the queue and
fan the event out; returns the invoked handlers and the remaining bus. -/
def processOne {β : Type} (b : EventBus β) :
    Option (List β × EventBus β) :=
  match b.queue with
  | [] => none
  | (_, e) :: rest =>
      some (allHandlers b e.eventType, { b with queue := rest })

/-! ## Odometry (odometry.py) -/

/-- First while loop of Pose2D.normalize_angle: while theta > pi, subtract
2*pi.  Terminates because the ceiling of (theta - pi) / (2*pi) strictly
decreases. -/
noncomputable def wrapDown (θ : ℝ) : ℝ :=
  if h : Real.pi < θ then wrapDown (θ - 2 * Real.pi) else θ
termination_by (⌈(θ - Real.pi) / (2 * Real.pi)⌉).toNat
decreasing_by
  have hpi : (0 : ℝ) < Real.pi := Real.pi_pos
  have h2pi : (0 : ℝ) < 2 * Real.pi := by linarith
  have hx : (0 : ℝ) < (θ - Real.pi) / (2 * Real.pi) :=
    div_pos (by linarith) h2pi
  have hrw : (θ - 2 * Real.pi - Real.pi) / (2 * Real.pi)
      = (θ - Real.pi) / (2 * Real.pi) - 1 := by
    field_simp
    ring
  have hceil : ⌈(θ - 2 * Real.pi - Real.pi) / (2 * Real.pi)⌉
      = ⌈(θ - Real.pi) / (2 * Real.pi)⌉ - 1 := by
    rw [hrw, Int.ceil_sub_one]
  have hpos : 0 < ⌈(θ - Real.pi) / (2 * Real.pi)⌉ := Int.ceil_pos.mpr hx
  simp only [hceil]
  omega

/-- Second while loop of Pose2D.normalize_angle: while theta < -pi, add
2*pi. -/
noncomputable def wrapUp (θ : ℝ) : ℝ :=
  if h : θ < -Real.pi then wrapUp (θ + 2 * Real.pi) else θ
termination_by (⌈(-Real.pi - θ) / (2 * Real.pi)⌉).toNat
decreasing_by
  have hpi : (0 : ℝ) < Real.pi := Real.pi_pos
  have h2pi : (0 : ℝ) < 2 * Real.pi := by linarith
  have hx : (0 : ℝ) < (-Real.pi - θ) / (2 * Real.pi) :=
    div_pos (by linarith) h2pi
  have hrw : (-Real.pi - (θ + 2 * Real.pi)) / (2 * Real.pi)
      = (-Real.pi - θ) / (2 * Real.pi) - 1 := by
    field_simp
    ring
  have hceil : ⌈(-Real.pi - (θ + 2 * Real.pi)) / (2 * Real.pi)⌉
      = ⌈(-Real.pi - θ) / (2 * Real.pi)⌉ - 1 := by
    rw [hrw, Int.ceil_sub_one]
  have hpos : 0 < ⌈(-Real.pi - θ) / (2 * Real.pi)⌉ := Int.ceil_pos.mpr hx
  simp only [hceil]
  omega

/-- Pose2D.normalize_angle: both while loops in source order. -/
noncomputable def normalizeAngle (θ : ℝ) : ℝ :=
  wrapUp (wrapDown θ)

/-- A 2-D pose (Pose2D dataclass). -/
structure Pose2D where
  x : ℝ
  y : ℝ
  theta : ℝ
  timestamp : ℝ

/-- Constructing a Pose2D runs __post_init__, which normalizes theta. -/
noncomputable def mkPose2D (x y θ ts : ℝ) : Pose2D :=
  ⟨x, y, normalizeAngle θ, ts⟩

/-- Result of one odometry kinematics update (the fields of Odometry that
_update_pose_with_kinematics writes, apart from the variance
accumulators). -/
structure KinematicsUpdate where
  pose : Pose2D
  linearVelocity : ℝ
  angularVelocity : ℝ
  distanceIncrement : ℝ

/-- Odometry._update_pose_with_kinematics: differential-drive update of the
current pose from per-wheel travelled distances over time step dt.  The
new timestamp (time.time() in the source) is passed as ts. -/
noncomputable def updatePoseWithKinematics (pose : Pose2D)
    (leftDistance rightDistance dt wheelBase ts : ℝ) : KinematicsUpdate :=
  let centerDistance := (leftDistance + rightDistance) / 2
  let deltaTheta := (rightDistance - leftDistance) / wheelBase
  let linearVelocity := if 0 < dt then centerDistance / dt else 0
  let angularVelocity := if 0 < dt then deltaTheta / dt else 0
  let pose1 :=
    if |deltaTheta| < 1e-6 then
      { pose with
        x := pose.x + centerDistance * Real.cos pose.theta
        y := pose.y + centerDistance * Real.sin pose.theta }
    else
      let radius := centerDistance / deltaTheta
      { pose with
        x := pose.x + radius *
          (Real.sin (pose.theta + deltaTheta) - Real.sin pose.theta)
        y := pose.y + radius *
          (Real.cos pose.theta - Real.cos (pose.theta + deltaTheta)) }
  { pose :=
      { pose1 with
        theta := normalizeAngle (pose1.theta + deltaTheta)
        timestamp := ts }
    linearVelocity := linearVelocity
    angularVelocity := angularVelocity
    distanceIncrement := |centerDistance| }

/-! ## Sensor fusion (sensor_fusion.py) -/

/-- ExtendedKalmanFilter.get_pose: build a Pose2D from the first three
components of the 6-dimensional state vector; the Pose2D constructor
normalizes the heading via __post_init__. -/
noncomputable def ekfGetPose (state : Fin 6 → ℝ) (ts : ℝ) : Pose2D :=
  mkPose2D (state 0) (state 1) (state 2) ts

/-! ## Path planning geometry (path_planner.py) -/

/-- A 2-D point (Point dataclass). -/
structure Point where
  x : ℝ
  y : ℝ

/-- Point.distance_to: Euclidean distance. -/
noncomputable def Point.distanceTo (p other : Point) : ℝ :=
  Real.sqrt ((p.x - other.x) ^ 2 + (p.y - other.y) ^ 2)

/-- Point.angle_to: math.atan2(other.y - self.y, other.x - self.x), embedded
as the complex argument, which agrees with atan2 including atan2 0 0 = 0. -/
noncomputable def Point.angleTo (p other : Point) : ℝ :=
  Complex.arg ⟨other.x - p.x, other.y - p.y⟩

/-- A tracked obstacle (Obstacle dataclass). -/
structure Obstacle where
  center : Point
  radius : ℝ
  timestamp : ℝ
  confidence : ℝ

/-- Obstacle.contains_point: the point is within radius of the center. -/
noncomputable def Obstacle.containsPoint (o : Obstacle) (point : Point) :
    Bool :=
  decide (o.center.distanceTo point ≤ o.radius)

/-- Obstacle.is_expired: strictly older than max_age seconds. -/
noncomputable def Obstacle.isExpired (o : Obstacle) (currentTime maxAge : ℝ) :
    Bool :=
  decide (maxAge < currentTime - o.timestamp)

/-! ## Dynamic window approach (path_planner.py, DynamicWindowApproach) -/

/-- DynamicWindowApproach constructor arguments; the sampling resolutions
(0.1) and scoring weights (1.0, 2.0, 0.1) are hard-coded in the source. -/
structure DWAParams where
  maxLinearVel : ℝ
  maxAngularVel : ℝ

/-- np.arange(start, stop, step) for positive step: the values
start + k * step for 0 <= k < ceil((stop - start) / step). -/
noncomputable def arange (start stop step : ℝ) : List ℝ :=
  (List.range (⌈(stop - start) / step⌉).toNat).map fun (k : ℕ) =>
    start + (k : ℝ) * step

/-- One rollout step loop of _predict_trajectory: each iteration moves by
v * cos(theta) * dt and v * sin(theta) * dt, then advances theta by w * dt,
and records the point reached. -/
noncomputable def predictTrajectoryAux (v w dt : ℝ) :
    ℕ → ℝ → ℝ → ℝ → List Point
  | 0, _, _, _ => []
  | n + 1, x, y, th =>
      let x' := x + v * Real.cos th * dt
      let y' := y + v * Real.sin th * dt
      let th' := th + w * dt
      ⟨x', y'⟩ :: predictTrajectoryAux v w dt n x' y' th'

/-- DynamicWindowApproach._predict_trajectory with the source defaults
dt = 0.1 and steps = 10. -/
noncomputable def predictTrajectory (pos : Point) (θ v w : ℝ) : List Point :=
  predictTrajectoryAux v w 0.1 10 pos.x pos.y θ

/-- DynamicWindowApproach._check_collision: some rollout point lies inside
some tracked obstacle. -/
noncomputable def checkCollision (trajectory : List Point)
    (obstacles : List Obstacle) : Bool :=
  trajectory.any fun point => obstacles.any fun o => o.containsPoint point

/-- DynamicWindowApproach._evaluate_trajectory.  Scores live in EReal so
that the float('-inf') guard for an empty trajectory and the float('inf')
starting value of the minimum clearance are represented exactly. -/
noncomputable def evaluateTrajectory (trajectory : List Point) (goal : Point)
    (obstacles : List Obstacle) (v : ℝ) : EReal :=
  match trajectory.getLast? with
  | none => (⊥ : EReal)
  | some endPoint =>
      let goalScore : ℝ := -(endPoint.distanceTo goal) * 1.0
      let minObstacleDist : EReal :=
        trajectory.foldl
          (fun acc point =>
            obstacles.foldl
              (fun acc2 o =>
                min acc2 ((o.center.distanceTo point - o.radius : ℝ) : EReal))
              acc)
          (⊤ : EReal)
      let obstacleScore : EReal := minObstacleDist * ((2.0 : ℝ) : EReal)
      let velocityScore : ℝ := v * 0.1
      (goalScore : EReal) + obstacleScore + (velocityScore : EReal)

/-- The sampled (v, w) velocity pairs of compute_velocity: the outer loop
over np.arange(0, max_linear_vel + 0.1, 0.1) and the inner loop over
np.arange(-max_angular_vel, max_angular_vel + 0.1, 0.1). -/
noncomputable def velocitySamples (p : DWAParams) : List (ℝ × ℝ) :=
  (arange 0 (p.maxLinearVel + 0.1) 0.1).flatMap fun v =>
    (arange (-p.maxAngularVel) (p.maxAngularVel + 0.1) 0.1).map fun w =>
      (v, w)

/-- The body of the double sampling loop of compute_velocity: skip colliding
trajectories, otherwise keep the best-scoring pair so far.  best carries
(best_v, best_w, best_score) with best_score starting at -inf. -/
noncomputable def dwaStep (pos : Point) (θ : ℝ) (goal : Point)
    (obstacles : List Obstacle) (best : ℝ × ℝ × EReal) (vw : ℝ × ℝ) :
    ℝ × ℝ × EReal :=
  let trajectory := predictTrajectory pos θ vw.1 vw.2
  if checkCollision trajectory obstacles then best
  else
    let score := evaluateTrajectory trajectory goal obstacles vw.1
    if best.2.2 < score then (vw.1, vw.2, score) else best

/-- DynamicWindowApproach.compute_velocity: fold the loop body over every
sampled pair, starting from best_v = 0, best_w = 0, best_score = -inf. -/
noncomputable def computeVelocity (p : DWAParams) (pos : Point) (θ : ℝ)
    (goal : Point) (obstacles : List Obstacle) : ℝ × ℝ :=
  let r := (velocitySamples p).foldl (dwaStep pos θ goal obstacles)
    (0, 0, (⊥ : EReal))
  (r.1, r.2.1)

/-! ## PathPlanner orchestration (path_planner.py, PathPlanner) -/

/-- Navigation states of the planner (NavigationState enum). -/
inductive NavigationState where
  | idle
  | planning
  | followingPath
  | avoidingObstacle
  | reachedGoal
  | failed
  deriving DecidableEq, Repr

/-- A navigation command (NavigationCommand dataclass). -/
structure NavigationCommand where
  linearSpeed : ℝ
  angularSpeed : ℝ
  commandType : String
  duration : ℝ

/-- The configuration fields of NavigationConfig that get_next_move and its
callees read. -/
structure NavConfig where
  maxLinearSpeed : ℝ
  maxAngularSpeed : ℝ
  goalTolerance : ℝ
  emergencyStopDistance : ℝ

/-- The mutable PathPlanner fields that get_next_move and its callees read
or write.  The look-ahead distance is fixed at 0.5 in __init__. -/
structure PathPlannerState where
  config : NavConfig
  navigationState : NavigationState
  currentPath : List Point
  currentGoal : Option Point
  currentPosition : Point
  currentTheta : ℝ
  dynamicObstacles : List Obstacle
  pathIndex : ℕ

/-- PathPlanner._create_navigation_command: normalize by the configured
maxima and clamp both speeds to [-1, 1]. -/
noncomputable def createNavigationCommand (config : NavConfig)
    (linearVel angularVel : ℝ) (commandType : String) : NavigationCommand :=
  ⟨max (-1) (min 1 (linearVel / config.maxLinearSpeed)),
    max (-1) (min 1 (angularVel / config.maxAngularSpeed)),
    commandType, 0⟩

/-- The scan of _find_lookahead_point from index i upward: the first path
point at distance at least lookahead, together with the index it was found
at (the source stores that index back into path_index). -/
noncomputable def findLookaheadFrom (pos : Point) (path : List Point)
    (lookahead : ℝ) (i : ℕ) : Option (Point × ℕ) :=
  if h : i < path.length then
    let pt := path.get ⟨i, h⟩
    if lookahead ≤ pos.distanceTo pt then some (pt, i)
    else findLookaheadFrom pos path lookahead (i + 1)
  else none
termination_by path.length - i

/-- PathPlanner._find_lookahead_point: scan from the current path index;
fall back to the final path point (without moving the index) when no point
is far enough; none when the path is empty.  Returns the chosen point and
the updated path_index. -/
noncomputable def findLookaheadPoint (st : PathPlannerState) :
    Option Point × ℕ :=
  if st.currentPath.isEmpty then (none, st.pathIndex)
  else
    match findLookaheadFrom st.currentPosition st.currentPath 0.5
        st.pathIndex with
    | some (pt, i) => (some pt, i)
    | none =>
        match st.currentPath.getLast? with
        | some pt => (some pt, st.pathIndex)
        | none => (none, st.pathIndex)

/-- PathPlanner._pure_pursuit_control.  The two angle-wrapping while loops
of the source are the same loops as Pose2D.normalize_angle. -/
noncomputable def purePursuitControl (st : PathPlannerState)
    (target : Point) : NavigationCommand :=
  let targetAngle := st.currentPosition.angleTo target
  let angleError := normalizeAngle (targetAngle - st.currentTheta)
  let distance := st.currentPosition.distanceTo target
  let linearSpeed0 := min (distance * 0.5) st.config.maxLinearSpeed
  let linearSpeed :=
    if Real.pi / 4 < |angleError| then linearSpeed0 * 0.5 else linearSpeed0
  let angularSpeed :=
    max (-st.config.maxAngularSpeed)
      (min st.config.maxAngularSpeed (angleError * 2.0))
  createNavigationCommand st.config linearSpeed angularSpeed "PURE_PURSUIT"

/-- PathPlanner._follow_path. -/
noncomputable def followPath (st : PathPlannerState) :
    Option NavigationCommand × PathPlannerState :=
  if st.currentPath.isEmpty || decide (st.currentPath.length ≤ st.pathIndex)
  then (none, st)
  else
    match findLookaheadPoint st with
    | (none, i) =>
        (some ⟨0, 0, "STOP", 0⟩, { st with pathIndex := i })
    | (some pt, i) =>
        let st' := { st with pathIndex := i }
        if st.dynamicObstacles.isEmpty then
          (some (purePursuitControl st' pt), st')
        else
          let vw := computeVelocity
            ⟨st.config.maxLinearSpeed, st.config.maxAngularSpeed⟩
            st.currentPosition st.currentTheta pt st.dynamicObstacles
          (some (createNavigationCommand st.config vw.1 vw.2 "FOLLOW_PATH"),
            st')

/-- PathPlanner._avoid_obstacles. -/
noncomputable def avoidObstacles (st : PathPlannerState) :
    Option NavigationCommand × PathPlannerState :=
  if st.dynamicObstacles.isEmpty then
    (none, { st with navigationState := NavigationState.followingPath })
  else
    let goal :=
      match st.currentGoal with
      | some goal => goal
      | none =>
          ⟨st.currentPosition.x + Real.cos st.currentTheta,
            st.currentPosition.y + Real.sin st.currentTheta⟩
    let vw := computeVelocity
      ⟨st.config.maxLinearSpeed, st.config.maxAngularSpeed⟩
      st.currentPosition st.currentTheta goal st.dynamicObstacles
    (some (createNavigationCommand st.config vw.1 vw.2 "AVOID_OBSTACLE"), st)

/-- Goal-tolerance test of get_next_move: there is a goal and the current
position is strictly within goal_tolerance of it. -/
noncomputable def goalReached (st : PathPlannerState) : Bool :=
  match st.currentGoal with
  | some goal =>
      decide (st.currentPosition.distanceTo goal < st.config.goalTolerance)
  | none => false

/-- Emergency test of get_next_move: a sensor minimum-distance reading is
available and strictly below emergency_stop_distance.  The reading is
Option-valued: none models sensor_data being absent (or lacking
get_min_distance). -/
noncomputable def emergencyTriggered (st : PathPlannerState)
    (sensorMinDistance : Option ℝ) : Bool :=
  match sensorMinDistance with
  | some d => decide (d < st.config.emergencyStopDistance)
  | none => false

/-- PathPlanner.get_next_move as a pure step: returns the produced command
(if any) and the planner state after the call. -/
noncomputable def getNextMove (st : PathPlannerState)
    (sensorMinDistance : Option ℝ) :
    Option NavigationCommand × PathPlannerState :=
  if st.navigationState = NavigationState.idle then (none, st)
  else if goalReached st then
    (some ⟨0, 0, "STOP", 0⟩,
      { st with navigationState := NavigationState.reachedGoal })
  else if emergencyTriggered st sensorMinDistance then
    (some ⟨0, 0, "EMERGENCY_STOP", 0⟩, st)
  else if st.navigationState = NavigationState.followingPath then
    followPath st
  else if st.navigationState = NavigationState.avoidingObstacle then
    avoidObstacles st
  else (none, st)

/-! ## Grid and A* planner (path_planner.py, Grid / AStarPlanner) -/

/-- Python int() truncation toward zero of a real number. -/
noncomputable def truncToInt (x : ℝ) : ℤ :=
  if 0 ≤ x then ⌊x⌋ else ⌈x⌉

/-- The occupancy grid (Grid class).  data y x is the float stored at
self.data[y, x]; out-of-bounds reads never happen in the embedded code
because is_free checks bounds first. -/
structure Grid where
  width : ℝ
  height : ℝ
  resolution : ℝ
  data : ℤ → ℤ → ℝ

/-- Grid.grid_width = int(width / resolution). -/
noncomputable def Grid.gridWidth (g : Grid) : ℤ :=
  truncToInt (g.width / g.resolution)

/-- Grid.grid_height = int(height / resolution). -/
noncomputable def Grid.gridHeight (g : Grid) : ℤ :=
  truncToInt (g.height / g.resolution)

/-- Grid.origin = Point(-width/2, -height/2). -/
noncomputable def Grid.origin (g : Grid) : Point :=
  ⟨-g.width / 2, -g.height / 2⟩

/-- Grid.world_to_grid: per-axis int() truncation of the offset from the
origin divided by the resolution. -/
noncomputable def Grid.worldToGrid (g : Grid) (point : Point) : ℤ × ℤ :=
  (truncToInt ((point.x - g.origin.x) / g.resolution),
    truncToInt ((point.y - g.origin.y) / g.resolution))

/-- Grid.grid_to_world: the world coordinates of a cell center. -/
noncomputable def Grid.gridToWorld (g : Grid) (gridX gridY : ℤ) : Point :=
  ⟨g.origin.x + (gridX + (0.5 : ℝ)) * g.resolution,
    g.origin.y + (gridY + (0.5 : ℝ)) * g.resolution⟩

/-- Grid.is_valid_grid: 0 <= x < grid_width and 0 <= y < grid_height. -/
noncomputable def Grid.isValidGrid (g : Grid) (gridX gridY : ℤ) : Bool :=
  decide (0 ≤ gridX) && decide (gridX < g.gridWidth) &&
    decide (0 ≤ gridY) && decide (gridY < g.gridHeight)

/-- Grid.is_free: out-of-bounds cells are not free; in-bounds cells are free
when their occupancy value is below 0.5. -/
noncomputable def Grid.isFree (g : Grid) (gridX gridY : ℤ) : Bool :=
  if g.isValidGrid gridX gridY then decide (g.data gridY gridX < 0.5)
  else false

/-- AStarPlanner._get_neighbors: the 8-connected neighbours that lie inside
the grid, in source loop order (dx outer, dy inner). -/
noncomputable def getNeighbors (g : Grid) (c : ℤ × ℤ) : List (ℤ × ℤ) :=
  ((([-1, 0, 1] : List ℤ).flatMap fun dx =>
      (([-1, 0, 1] : List ℤ).map fun dy => (dx, dy))).filter
    (fun d => !(decide (d.1 = 0) && decide (d.2 = 0)))).filterMap
    fun d =>
      let n := (c.1 + d.1, c.2 + d.2)
      if g.isValidGrid n.1 n.2 then some n else none

/-- AStarPlanner._distance (also the heuristic): Euclidean distance between
cell indices. -/
noncomputable def cellDist (p q : ℤ × ℤ) : ℝ :=
  Real.sqrt (((p.1 : ℝ) - (q.1 : ℝ)) ^ 2 + ((p.2 : ℝ) - (q.2 : ℝ)) ^ 2)

/-- Lookup in an association list (Python dict read, newest binding wins). -/
def alookup {ν : Type} : List ((ℤ × ℤ) × ν) → (ℤ × ℤ) → Option ν
  | [], _ => none
  | (k, v) :: rest, k' => if k' = k then some v else alookup rest k'

/-- Overwriting insert into an association list (Python dict write). -/
def ainsert {ν : Type} (l : List ((ℤ × ℤ) × ν)) (k : ℤ × ℤ) (v : ν) :
    List ((ℤ × ℤ) × ν) :=
  (k, v) :: l.filter fun p => decide (p.1 ≠ k)

/-- Strict lexicographic order on heap entries, as Python compares the
(f_score, (x, y)) tuples stored in the heapq. -/
def entryLt (a b : ℝ × (ℤ × ℤ)) : Prop :=
  a.1 < b.1 ∨ (a.1 = b.1 ∧
    (a.2.1 < b.2.1 ∨ (a.2.1 = b.2.1 ∧ a.2.2 < b.2.2)))

noncomputable instance (a b : ℝ × (ℤ × ℤ)) : Decidable (entryLt a b) := by
  unfold entryLt
  infer_instance

/-- Selection of the minimum heap entry: scan for the smallest entry in
tuple order, keeping all others. -/
noncomputable def popMinAux (best : ℝ × (ℤ × ℤ)) :
    List (ℝ × (ℤ × ℤ)) → (ℝ × (ℤ × ℤ)) × List (ℝ × (ℤ × ℤ))
  | [] => (best, [])
  | e :: rest =>
      if entryLt e best then
        let r := popMinAux e rest
        (r.1, best :: r.2)
      else
        let r := popMinAux best rest
        (r.1, e :: r.2)

/-- heapq.heappop on the open set: the minimum entry in tuple order together
with the remaining entries; none when the heap is empty. -/
noncomputable def popMin :
    List (ℝ × (ℤ × ℤ)) → Option ((ℝ × (ℤ × ℤ)) × List (ℝ × (ℤ × ℤ)))
  | [] => none
  | e :: rest => some (popMinAux e rest)

/-- The mutable state of the A* search loop. -/
structure AStarState where
  openSet : List (ℝ × (ℤ × ℤ))
  cameFrom : List ((ℤ × ℤ) × (ℤ × ℤ))
  gScore : List ((ℤ × ℤ) × ℝ)
  fScore : List ((ℤ × ℤ) × ℝ)

/-- AStarPlanner._reconstruct_path before the final reversal: walk the
parent pointers from current.  The walk is fuelled; came_from.length is
enough fuel because g_score strictly decreases along parent pointers. -/
def reconstructAux : ℕ → List ((ℤ × ℤ) × (ℤ × ℤ)) → (ℤ × ℤ) → List (ℤ × ℤ)
  | 0, _, current => [current]
  | fuel + 1, cf, current =>
      match alookup cf current with
      | none => [current]
      | some p => current :: reconstructAux fuel cf p

/-- The neighbour-relaxation body of the A* main loop: skip occupied cells,
otherwise compare the tentative g-score and, when it improves, record the
parent, the scores, and push the neighbour onto the open set. -/
noncomputable def relaxNeighbor (g : Grid) (goal current : ℤ × ℤ)
    (st : AStarState) (nb : ℤ × ℤ) : AStarState :=
  if ¬ g.isFree nb.1 nb.2 then st
  else
    let gCur := (alookup st.gScore current).getD 0
    let tentative := gCur + cellDist current nb
    let doUpdate : Bool :=
      match alookup st.gScore nb with
      | none => true
      | some gNb => decide (tentative < gNb)
    if doUpdate then
      let fNb := tentative + cellDist nb goal
      { openSet := (fNb, nb) :: st.openSet
        cameFrom := ainsert st.cameFrom nb current
        gScore := ainsert st.gScore nb tentative
        fScore := ainsert st.fScore nb fNb }
    else st

/-- The A* main loop of AStarPlanner.plan_path, fuelled by the remaining
iteration budget: returns [] when the budget or the open set runs out, and
the reconstructed cell path when the goal is popped. -/
noncomputable def aStarLoop (g : Grid) (goal : ℤ × ℤ) :
    ℕ → AStarState → List (ℤ × ℤ)
  | 0, _ => []
  | fuel + 1, st =>
      match popMin st.openSet with
      | none => []
      | some (e, rest) =>
          let current := e.2
          if current = goal then
            (reconstructAux st.cameFrom.length st.cameFrom current).reverse
          else
            aStarLoop g goal fuel
              ((getNeighbors g current).foldl
                (relaxNeighbor g goal current) { st with openSet := rest })

/-- AStarPlanner.plan_path restricted to grid cells (after world_to_grid):
reject occupied endpoints, then run the search from the start cell, whose
initial heap entry carries key 0 and whose g-score is 0. -/
noncomputable def planPathCells (g : Grid) (startCell goalCell : ℤ × ℤ)
    (maxIterations : ℕ) : List (ℤ × ℤ) :=
  if ¬ g.isFree startCell.1 startCell.2 then []
  else if ¬ g.isFree goalCell.1 goalCell.2 then []
  else
    aStarLoop g goalCell maxIterations
      { openSet := [(0, startCell)]
        cameFrom := []
        gScore := [(startCell, 0)]
        fScore := [(startCell, cellDist startCell goalCell)] }

/-- AStarPlanner.plan_path: convert the endpoints to cells, search, and
convert the resulting cell path back to world coordinates. -/
noncomputable def planPath (g : Grid) (start goal : Point)
    (maxIterations : ℕ) : List Point :=
  (planPathCells g (g.worldToGrid start) (g.worldToGrid goal)
      maxIterations).map fun c => g.gridToWorld c.1 c.2

/-! ## Concrete instances used by witnesses and counterexamples -/

/-- A fresh state machine sitting in Idle with no validators. -/
def mach0 : StateMachine Unit :=
  ⟨RobotState.idle, [], fun _ => []⟩

/-- A state machine that has reached the terminal Shutdown state. -/
def machShutdown : StateMachine Unit :=
  ⟨RobotState.shutdown, [], fun _ => []⟩

/-- An event bus with no subscribers and an empty queue; handlers are
numbered. -/
def bus0 : EventBus ℕ :=
  ⟨fun _ => [], fun _ => [], []⟩

/-- The default NavigationConfig values of config.py. -/
noncomputable def defaultNavConfig : NavConfig :=
  ⟨0.5, 1.0, 0.1, 0.2⟩

/-- A planner sitting in the Idle navigation state. -/
noncomputable def idlePlanner : PathPlannerState :=
  ⟨defaultNavConfig, NavigationState.idle, [], none, ⟨0, 0⟩, 0, [], 0⟩

/-- A planner following a path with no goal set. -/
noncomputable def activePlanner : PathPlannerState :=
  ⟨defaultNavConfig, NavigationState.followingPath, [], none, ⟨0, 0⟩, 0,
    [], 0⟩

/-- DWA parameters with the default maxima of config.py. -/
noncomputable def dwaSmall : DWAParams :=
  ⟨0.5, 1.0⟩

/-- An obstacle so large that every short rollout from the origin stays
inside it. -/
noncomputable def hugeObstacle : Obstacle :=
  ⟨⟨0, 0⟩, 1000, 0, 1⟩

/-- Invariant of the A* loop state, relative to the grid and the start
cell: every open entry has a g-score; the start keeps g-score 0 and never
acquires a parent; g-scores are nonnegative; the g-score strictly
decreases along parent pointers; parents are the start or have parents
themselves; popped cells are the start or have parents; and every cell
with a g-score is free. -/
structure AStarInv (g : Grid) (start : ℤ × ℤ) (st : AStarState) : Prop where
  openG : ∀ e ∈ st.openSet, (alookup st.gScore e.2).isSome
  startG : alookup st.gScore start = some 0
  startCF : alookup st.cameFrom start = none
  gNonneg : ∀ c v, alookup st.gScore c = some v → 0 ≤ v
  cfLt : ∀ n p, alookup st.cameFrom n = some p →
    ∃ gn gp, alookup st.gScore n = some gn ∧
      alookup st.gScore p = some gp ∧ gp < gn
  cfParent : ∀ n p, alookup st.cameFrom n = some p →
    p = start ∨ (alookup st.cameFrom p).isSome
  openParent : ∀ e ∈ st.openSet,
    e.2 = start ∨ (alookup st.cameFrom e.2).isSome
  freeG : ∀ c : ℤ × ℤ, (alookup st.gScore c).isSome →
    g.isFree c.1 c.2 = true

/-- A 1x1 grid with every cell free. -/
noncomputable def gridFree : Grid :=
  ⟨1, 1, 1, fun _ _ => 0⟩

/-- A 1x1 grid with every cell occupied. -/
noncomputable def gridOcc : Grid :=
  ⟨1, 1, 1, fun _ _ => 1⟩

end RobotCore

namespace RobotCore

/-! # Theorems -/

/-! ## C4: Shutdown is terminal -/

/-- C4: for every target state, reason and payload, calling transition_to
while the current state is Shutdown returns false and leaves the current
state equal to Shutdown; the Shutdown row of the transition table is the
empty set. -/
theorem shutdown_terminal {α : Type} (m : StateMachine α) (tgt : RobotState)
    (reason : StateChangeReason) (data : α) (ts : ℚ)
    (h : m.current = RobotState.shutdown) :
    (transitionTo m tgt reason data ts).1 = false ∧
    (transitionTo m tgt reason data ts).2.current = RobotState.shutdown ∧
    transitionRules RobotState.shutdown = [] := by
  have hallow : isTransitionAllowed RobotState.shutdown tgt = false := by
    simp [isTransitionAllowed, transitionRules]
  refine ⟨?_, ?_, rfl⟩ <;> simp [transitionTo, hallow, h]

/-- C4 witness: a concrete transition attempt out of Shutdown. -/
theorem shutdown_terminal_witness :
    (transitionTo machShutdown RobotState.idle StateChangeReason.userCommand
        () 0).1 = false ∧
    (transitionTo machShutdown RobotState.idle StateChangeReason.userCommand
        () 0).2.current = RobotState.shutdown ∧
    transitionRules RobotState.shutdown = [] :=
  shutdown_terminal machShutdown RobotState.idle StateChangeReason.userCommand
    () 0 rfl

/-! ## C3: rejected transitions and the history -/

/-- C3 counterexample: Idle -> Shutdown is not in the transition table, so
transition_to rejects it and returns false, but the history stays empty:
no StateTransition record with success = false is appended, contradicting
the claim. -/
theorem rejected_transition_counterexample :
    isTransitionAllowed mach0.current RobotState.shutdown = false ∧
    (transitionTo mach0 RobotState.shutdown StateChangeReason.userCommand
        () 0).1 = false ∧
    (transitionTo mach0 RobotState.shutdown StateChangeReason.userCommand
        () 0).2.history.length = mach0.history.length := by
  exact ⟨rfl, rfl, rfl⟩

/-- C3 amended: whenever transition_to rejects a transition, because the
edge is not in the transition table or a validator for the target state
returns false, it returns false and leaves the machine - in particular the
state history - completely unchanged; no failed StateTransition record is
appended on rejection. -/
theorem rejected_transition_no_record {α : Type} (m : StateMachine α)
    (tgt : RobotState) (reason : StateChangeReason) (data : α) (ts : ℚ)
    (h : isTransitionAllowed m.current tgt = false ∨
      validateStateConditions m tgt data = false) :
    transitionTo m tgt reason data ts = (false, m) := by
  rcases h with h | h
  · simp [transitionTo, h]
  · by_cases h2 : isTransitionAllowed m.current tgt
    · simp [transitionTo, h, h2]
    · simp [transitionTo, h2]

/-- C3 witness: the rejected Idle -> Shutdown attempt leaves the machine
unchanged. -/
theorem rejected_transition_no_record_witness :
    transitionTo mach0 RobotState.shutdown StateChangeReason.userCommand () 0
      = (false, mach0) :=
  rejected_transition_no_record mach0 RobotState.shutdown
    StateChangeReason.userCommand () 0 (Or.inl rfl)

/-! ## C9: event bus delivery counts -/

/-- C9: subscribing a fresh handler for kind k makes exactly one delivery to
it when one published event of kind k is processed; kinds other than k do
not deliver to it; and after unsubscribe it receives zero deliveries. -/
theorem eventbus_delivery {β : Type} [DecidableEq β] (b : EventBus β)
    (k k' : EventType) (h : β)
    (hq : b.queue = [])
    (hs : h ∉ b.subscribers k) (hw : h ∉ b.weakSubscribers k) :
    ((processOne (publish (subscribe b k h false) ⟨k⟩ 0)).map Prod.fst =
      some (allHandlers (subscribe b k h false) k)) ∧
    (allHandlers (subscribe b k h false) k).count h = 1 ∧
    (k' ≠ k → h ∉ b.subscribers k' → h ∉ b.weakSubscribers k' →
      (allHandlers (subscribe b k h false) k').count h = 0) ∧
    (allHandlers (unsubscribe (subscribe b k h false) k h) k).count h = 0 := by
  have hsub : (subscribe b k h false).subscribers k = b.subscribers k ++ [h] := by
    simp [subscribe]
  refine ⟨?_, ?_, ?_, ?_⟩
  · simp [processOne, publish, subscribe, hq, allHandlers]
  · simp [allHandlers, subscribe, List.count_append,
      List.count_eq_zero.mpr hs, List.count_eq_zero.mpr hw]
  · intro hkk hs' hw'
    simp [allHandlers, subscribe, hkk, List.count_append,
      List.count_eq_zero.mpr hs', List.count_eq_zero.mpr hw']
  · have hmem : h ∈ (subscribe b k h false).subscribers k := by
      rw [hsub]; simp
    have herase : ((subscribe b k h false).subscribers k).erase h
        = b.subscribers k := by
      rw [hsub, List.erase_append_right _ hs]
      simp
    simp [unsubscribe, hmem, allHandlers, subscribe, List.count_append,
      List.count_eq_zero.mpr hs, List.count_eq_zero.mpr hw, herase]

/-- C9 witness: handler 0 on an empty bus, kinds navigation vs vision. -/
theorem eventbus_delivery_witness :
    (allHandlers (subscribe bus0 EventType.navigation 0 false)
        EventType.navigation).count 0 = 1 ∧
    (allHandlers (subscribe bus0 EventType.navigation 0 false)
        EventType.vision).count 0 = 0 ∧
    (allHandlers
        (unsubscribe (subscribe bus0 EventType.navigation 0 false)
          EventType.navigation 0)
        EventType.navigation).count 0 = 0 := by
  have h := eventbus_delivery bus0 EventType.navigation EventType.vision 0
    rfl (by simp [bus0]) (by simp [bus0])
  exact ⟨h.2.1, h.2.2.1 (by decide) (by simp [bus0]) (by simp [bus0]),
    h.2.2.2⟩

/-! ## Angle normalization lemmas -/

theorem wrapDown_le_pi (θ : ℝ) : wrapDown θ ≤ Real.pi := by
  induction θ using wrapDown.induct with
  | case1 θ h ih =>
      rw [wrapDown, dif_pos h]
      exact ih
  | case2 θ h =>
      rw [wrapDown, dif_neg h]
      exact le_of_not_lt h

theorem wrapDown_of_le {θ : ℝ} (h : θ ≤ Real.pi) : wrapDown θ = θ := by
  rw [wrapDown, dif_neg (not_lt.mpr h)]

theorem wrapUp_ge (θ : ℝ) : -Real.pi ≤ wrapUp θ := by
  induction θ using wrapUp.induct with
  | case1 θ h ih =>
      rw [wrapUp, dif_pos h]
      exact ih
  | case2 θ h =>
      rw [wrapUp, dif_neg h]
      exact le_of_not_lt h

theorem wrapUp_of_ge {θ : ℝ} (h : -Real.pi ≤ θ) : wrapUp θ = θ := by
  rw [wrapUp, dif_neg (not_lt.mpr h)]

theorem wrapUp_le_pi {θ : ℝ} (h : θ ≤ Real.pi) : wrapUp θ ≤ Real.pi := by
  induction θ using wrapUp.induct with
  | case1 θ h' ih =>
      rw [wrapUp, dif_pos h']
      exact ih (by linarith [Real.pi_pos])
  | case2 θ h' =>
      rw [wrapUp, dif_neg h']
      exact h

theorem normalizeAngle_mem (θ : ℝ) :
    normalizeAngle θ ∈ Set.Icc (-Real.pi) Real.pi :=
  ⟨wrapUp_ge _, wrapUp_le_pi (wrapDown_le_pi θ)⟩

theorem normalizeAngle_of_mem {θ : ℝ}
    (h : θ ∈ Set.Icc (-Real.pi) Real.pi) : normalizeAngle θ = θ := by
  rw [normalizeAngle, wrapDown_of_le h.2, wrapUp_of_ge h.1]

/-! ## C5: straight-line odometry update -/

/-- C5: with equal left and right wheel distances d over a positive time
step, the kinematics update takes the straight-line branch: the position
translates by d along the prior heading and theta is unchanged (the prior
heading of a normalized pose is a fixed point of the re-normalization). -/
theorem odometry_straight_line (pose : Pose2D) (d dt wheelBase ts : ℝ)
    (hdt : 0 < dt) (hθ : pose.theta ∈ Set.Icc (-Real.pi) Real.pi) :
    (updatePoseWithKinematics pose d d dt wheelBase ts).pose.x
        = pose.x + d * Real.cos pose.theta ∧
    (updatePoseWithKinematics pose d d dt wheelBase ts).pose.y
        = pose.y + d * Real.sin pose.theta ∧
    (updatePoseWithKinematics pose d d dt wheelBase ts).pose.theta
        = pose.theta := by
  have hδ : (d - d) / wheelBase = 0 := by simp
  have hcenter : (d + d) / 2 = d := by ring
  simp only [updatePoseWithKinematics, hδ, hcenter, abs_zero, add_zero]
  rw [if_pos (by norm_num : (0 : ℝ) < 1e-6)]
  exact ⟨rfl, rfl, normalizeAngle_of_mem hθ⟩

/-- C5 witness: pose at the origin with heading 0, wheel travel 1 over one
second. -/
theorem odometry_straight_line_witness :
    (updatePoseWithKinematics ⟨0, 0, 0, 0⟩ 1 1 1 1 0).pose.x
        = 0 + 1 * Real.cos 0 ∧
    (updatePoseWithKinematics ⟨0, 0, 0, 0⟩ 1 1 1 1 0).pose.y
        = 0 + 1 * Real.sin 0 ∧
    (updatePoseWithKinematics ⟨0, 0, 0, 0⟩ 1 1 1 1 0).pose.theta = 0 :=
  odometry_straight_line ⟨0, 0, 0, 0⟩ 1 1 1 0 one_pos
    ⟨by simp [Real.pi_pos.le], Real.pi_pos.le⟩

/-! ## C6: range of produced headings -/

/-- C6 counterexample: get_pose on an EKF state whose heading component is
-pi returns theta = -pi, which lies outside the half-open interval
(-pi, pi] asserted by the claim; the source normalization maps onto the
closed interval [-pi, pi]. -/
theorem theta_open_interval_counterexample :
    (ekfGetPose (fun _ => -Real.pi) 0).theta = -Real.pi ∧
    (ekfGetPose (fun _ => -Real.pi) 0).theta ∉
      Set.Ioc (-Real.pi) Real.pi := by
  have h1 : (ekfGetPose (fun _ => -Real.pi) 0).theta = -Real.pi := by
    show normalizeAngle (-Real.pi) = -Real.pi
    exact normalizeAngle_of_mem ⟨le_refl _, by linarith [Real.pi_pos]⟩
  refine ⟨h1, ?_⟩
  rw [h1]
  simp [Set.mem_Ioc]

/-- C6 amended: every pose produced by the odometry kinematics update and
every pose built by ExtendedKalmanFilter.get_pose has its heading theta in
the closed interval [-pi, pi] (the normalization loops can return exactly
-pi, so the interval is closed on the left, not open). -/
theorem produced_theta_in_closed_interval :
    (∀ (pose : Pose2D) (l r dt wb ts : ℝ),
      (updatePoseWithKinematics pose l r dt wb ts).pose.theta ∈
        Set.Icc (-Real.pi) Real.pi) ∧
    (∀ (state : Fin 6 → ℝ) (ts : ℝ),
      (ekfGetPose state ts).theta ∈ Set.Icc (-Real.pi) Real.pi) :=
  ⟨fun _ _ _ _ _ _ => normalizeAngle_mem _,
    fun _ _ => normalizeAngle_mem _⟩

/-! ## C1: emergency stop priority in get_next_move -/

/-- C1 counterexample: with the planner in the Idle navigation state and a
sensor minimum distance of 0, strictly below the configured emergency
threshold 0.2, get_next_move returns no command at all rather than an
emergency-stop command, because the Idle early return precedes the
emergency check. -/
theorem emergency_stop_counterexample :
    (0 : ℝ) < idlePlanner.config.emergencyStopDistance ∧
    (getNextMove idlePlanner (some 0)).1 = none := by
  constructor
  · norm_num [idlePlanner, defaultNavConfig]
  · simp [getNextMove, idlePlanner]

/-- C1 amended: whenever the planner is in any navigation state other than
Idle and the goal-tolerance check does not fire, a sensor minimum distance
below the emergency threshold makes get_next_move return the
emergency-stop command with zero linear and angular speed, leaving the
planner state unchanged; the Idle early return and the goal-tolerance stop
take precedence over the emergency check. -/
theorem emergency_stop_priority (st : PathPlannerState) (d : ℝ)
    (hstate : st.navigationState ≠ NavigationState.idle)
    (hgoal : goalReached st = false)
    (hd : d < st.config.emergencyStopDistance) :
    getNextMove st (some d) = (some ⟨0, 0, "EMERGENCY_STOP", 0⟩, st) := by
  have hem : emergencyTriggered st (some d) = true := by
    simp [emergencyTriggered, hd]
  simp [getNextMove, hstate, hgoal, hem]

/-- C1 witness: a path-following planner with no goal and a zero-distance
reading receives the emergency-stop command. -/
theorem emergency_stop_priority_witness :
    getNextMove activePlanner (some 0) =
      (some ⟨0, 0, "EMERGENCY_STOP", 0⟩, activePlanner) :=
  emergency_stop_priority activePlanner 0 (by decide) rfl
    (by norm_num [activePlanner, defaultNavConfig])

/-! ## DWA lemmas -/

theorem predictTrajectoryAux_succ (v w dt : ℝ) (n : ℕ) (x y th : ℝ) :
    predictTrajectoryAux v w dt (n + 1) x y th =
      ⟨x + v * Real.cos th * dt, y + v * Real.sin th * dt⟩ ::
        predictTrajectoryAux v w dt n (x + v * Real.cos th * dt)
          (y + v * Real.sin th * dt) (th + w * dt) := rfl

theorem predictTrajectory_ne_nil (pos : Point) (θ v w : ℝ) :
    predictTrajectory pos θ v w ≠ [] := by
  rw [predictTrajectory, show (10 : ℕ) = 9 + 1 from rfl,
    predictTrajectoryAux_succ]
  simp

theorem mem_map_range_iff {n : ℕ} {f : ℕ → ℝ} {x : ℝ} :
    x ∈ (List.range n).map f ↔ ∃ k, k < n ∧ f k = x := by
  simp [List.mem_map, List.mem_range]

theorem arange_mem_iff {start stop step x : ℝ} :
    x ∈ arange start stop step ↔
      ∃ k : ℕ, k < (⌈(stop - start) / step⌉).toNat ∧
        start + (k : ℝ) * step = x := by
  rw [arange]
  exact mem_map_range_iff

theorem innerMinFold_ne_bot (point : Point) (obstacles : List Obstacle) :
    ∀ acc : EReal, acc ≠ ⊥ →
      obstacles.foldl (fun acc2 o =>
          min acc2 ((o.center.distanceTo point - o.radius : ℝ) : EReal))
        acc ≠ ⊥ := by
  induction obstacles with
  | nil => exact fun _ h => h
  | cons o rest ih =>
      intro acc h
      refine ih _ ?_
      simp only [Ne, min_eq_bot, not_or]
      exact ⟨h, EReal.coe_ne_bot _⟩

theorem minFold_ne_bot (trajectory : List Point) (obstacles : List Obstacle) :
    ∀ acc : EReal, acc ≠ ⊥ →
      trajectory.foldl
        (fun acc point =>
          obstacles.foldl (fun acc2 o =>
            min acc2 ((o.center.distanceTo point - o.radius : ℝ) : EReal))
            acc)
        acc ≠ ⊥ := by
  induction trajectory with
  | nil => exact fun _ h => h
  | cons p rest ih =>
      intro acc h
      exact ih _ (innerMinFold_ne_bot p obstacles acc h)

theorem ereal_mul_coe_ne_bot (m : EReal) (c : ℝ) (hm : m ≠ ⊥) (hc : 0 < c) :
    m * (c : EReal) ≠ ⊥ := by
  induction m using EReal.rec with
  | h_bot => exact absurd rfl hm
  | h_real r =>
      rw [← EReal.coe_mul]
      exact EReal.coe_ne_bot _
  | h_top =>
      rw [EReal.top_mul_coe_of_pos hc]
      simp

theorem evaluateTrajectory_ne_bot (trajectory : List Point) (goal : Point)
    (obstacles : List Obstacle) (v : ℝ) (h : trajectory ≠ []) :
    evaluateTrajectory trajectory goal obstacles v ≠ ⊥ := by
  rcases hl : trajectory.getLast? with _ | e
  · exact absurd (List.getLast?_eq_none_iff.mp hl) h
  · have hm := minFold_ne_bot trajectory obstacles ⊤ (by simp)
    have hmul := ereal_mul_coe_ne_bot _ (2.0 : ℝ) hm (by norm_num)
    simp only [evaluateTrajectory, hl]
    intro hbot
    rw [EReal.add_eq_bot_iff] at hbot
    rcases hbot with hbot | hbot
    · rw [EReal.add_eq_bot_iff] at hbot
      rcases hbot with hbot | hbot
      · exact EReal.coe_ne_bot _ hbot
      · exact hmul hbot
    · exact EReal.coe_ne_bot _ hbot

theorem dwaStep_of_collision {pos goal : Point} {θ : ℝ}
    {obstacles : List Obstacle} {best : ℝ × ℝ × EReal} {vw : ℝ × ℝ}
    (h : checkCollision (predictTrajectory pos θ vw.1 vw.2) obstacles
      = true) :
    dwaStep pos θ goal obstacles best vw = best := by
  simp [dwaStep, h]

theorem dwa_fold_all_collide (pos : Point) (θ : ℝ) (goal : Point)
    (obstacles : List Obstacle) :
    ∀ (l : List (ℝ × ℝ)) (best : ℝ × ℝ × EReal),
      (∀ vw ∈ l,
        checkCollision (predictTrajectory pos θ vw.1 vw.2) obstacles
          = true) →
      l.foldl (dwaStep pos θ goal obstacles) best = best := by
  intro l
  induction l with
  | nil => exact fun _ _ => rfl
  | cons e rest ih =>
      intro best hall
      rw [List.foldl_cons, dwaStep_of_collision (hall e (by simp))]
      exact ih best fun vw hv => hall vw (by simp [hv])

theorem dwaStep_inv (pos : Point) (θ : ℝ) (goal : Point)
    (obstacles : List Obstacle) (best : ℝ × ℝ × EReal) (vw : ℝ × ℝ)
    (hbest : best.2.2 ≠ ⊥ →
      checkCollision (predictTrajectory pos θ best.1 best.2.1) obstacles
        = false) :
    (dwaStep pos θ goal obstacles best vw).2.2 ≠ ⊥ →
      checkCollision
        (predictTrajectory pos θ (dwaStep pos θ goal obstacles best vw).1
          (dwaStep pos θ goal obstacles best vw).2.1) obstacles = false := by
  by_cases hc :
      checkCollision (predictTrajectory pos θ vw.1 vw.2) obstacles = true
  · rw [dwaStep_of_collision hc]
    exact hbest
  · rw [Bool.not_eq_true] at hc
    by_cases hlt : best.2.2 <
        evaluateTrajectory (predictTrajectory pos θ vw.1 vw.2) goal
          obstacles vw.1
    · simp [dwaStep, hc, hlt]
    · simp only [dwaStep, hc, Bool.false_eq_true, if_false, if_neg hlt]
      exact hbest

theorem dwa_fold_inv (pos : Point) (θ : ℝ) (goal : Point)
    (obstacles : List Obstacle) :
    ∀ (l : List (ℝ × ℝ)) (best : ℝ × ℝ × EReal),
      (best.2.2 ≠ ⊥ →
        checkCollision (predictTrajectory pos θ best.1 best.2.1) obstacles
          = false) →
      (l.foldl (dwaStep pos θ goal obstacles) best).2.2 ≠ ⊥ →
        checkCollision
          (predictTrajectory pos θ
            (l.foldl (dwaStep pos θ goal obstacles) best).1
            (l.foldl (dwaStep pos θ goal obstacles) best).2.1) obstacles
          = false := by
  intro l
  induction l with
  | nil => exact fun _ hbest => hbest
  | cons e rest ih =>
      intro best hbest
      rw [List.foldl_cons]
      exact ih _ (dwaStep_inv pos θ goal obstacles best e hbest)

theorem dwa_fold_ne_bot_of_ne_bot (pos : Point) (θ : ℝ) (goal : Point)
    (obstacles : List Obstacle) :
    ∀ (l : List (ℝ × ℝ)) (best : ℝ × ℝ × EReal), best.2.2 ≠ ⊥ →
      (l.foldl (dwaStep pos θ goal obstacles) best).2.2 ≠ ⊥ := by
  intro l
  induction l with
  | nil => exact fun _ h => h
  | cons e rest ih =>
      intro best hb
      rw [List.foldl_cons]
      refine ih _ ?_
      by_cases hc :
          checkCollision (predictTrajectory pos θ e.1 e.2) obstacles = true
      · rw [dwaStep_of_collision hc]
        exact hb
      · rw [Bool.not_eq_true] at hc
        by_cases hlt : best.2.2 <
            evaluateTrajectory (predictTrajectory pos θ e.1 e.2) goal
              obstacles e.1
        · simp only [dwaStep, hc, Bool.false_eq_true, if_false, if_pos hlt]
          exact ne_of_gt (lt_trans (bot_lt_iff_ne_bot.mpr hb) hlt)
        · simp only [dwaStep, hc, Bool.false_eq_true, if_false, if_neg hlt]
          exact hb

theorem dwa_fold_ne_bot_of_mem (pos : Point) (θ : ℝ) (goal : Point)
    (obstacles : List Obstacle) :
    ∀ (l : List (ℝ × ℝ)) (best : ℝ × ℝ × EReal),
      (∃ vw ∈ l,
        checkCollision (predictTrajectory pos θ vw.1 vw.2) obstacles
          = false) →
      (l.foldl (dwaStep pos θ goal obstacles) best).2.2 ≠ ⊥ := by
  intro l
  induction l with
  | nil => simp
  | cons e rest ih =>
      intro best hex
      rw [List.foldl_cons]
      by_cases hc :
          checkCollision (predictTrajectory pos θ e.1 e.2) obstacles = false
      · refine dwa_fold_ne_bot_of_ne_bot pos θ goal obstacles rest _ ?_
        have hs := evaluateTrajectory_ne_bot
          (predictTrajectory pos θ e.1 e.2) goal obstacles e.1
          (predictTrajectory_ne_nil pos θ e.1 e.2)
        by_cases hlt : best.2.2 <
            evaluateTrajectory (predictTrajectory pos θ e.1 e.2) goal
              obstacles e.1
        · simp only [dwaStep, hc, Bool.false_eq_true, if_false, if_pos hlt]
          exact hs
        · simp only [dwaStep, hc, Bool.false_eq_true, if_false, if_neg hlt]
          rw [not_lt] at hlt
          exact ne_of_gt (lt_of_lt_of_le (bot_lt_iff_ne_bot.mpr hs) hlt)
      · rcases hex with ⟨vw, hmem, hvw⟩
        rcases List.mem_cons.mp hmem with rfl | hmem'
        · exact absurd hvw hc
        · exact ih _ ⟨vw, hmem', hvw⟩

/-! ## C2: the chosen DWA velocity is collision-free -/

/-- C2: whenever some sampled velocity pair has a collision-free rollout,
compute_velocity returns a pair whose own rollout is collision-free. -/
theorem dwa_collision_free_result (p : DWAParams) (pos : Point) (θ : ℝ)
    (goal : Point) (obstacles : List Obstacle)
    (hex : ∃ vw ∈ velocitySamples p,
      checkCollision (predictTrajectory pos θ vw.1 vw.2) obstacles
        = false) :
    checkCollision
      (predictTrajectory pos θ (computeVelocity p pos θ goal obstacles).1
        (computeVelocity p pos θ goal obstacles).2) obstacles = false := by
  have hinv := dwa_fold_inv pos θ goal obstacles (velocitySamples p)
    (0, 0, (⊥ : EReal)) (by simp)
  have hb := dwa_fold_ne_bot_of_mem pos θ goal obstacles (velocitySamples p)
    (0, 0, (⊥ : EReal)) hex
  simpa [computeVelocity] using hinv hb

/-- C2 witness: with no obstacles, the pair (0, 0) is a collision-free
sample, so the returned pair has a collision-free rollout. -/
theorem dwa_collision_free_result_witness :
    checkCollision
      (predictTrajectory ⟨0, 0⟩ 0
        (computeVelocity dwaSmall ⟨0, 0⟩ 0 ⟨0, 0⟩ []).1
        (computeVelocity dwaSmall ⟨0, 0⟩ 0 ⟨0, 0⟩ []).2) [] = false := by
  refine dwa_collision_free_result dwaSmall ⟨0, 0⟩ 0 ⟨0, 0⟩ []
    ⟨(0, 0), ?_, ?_⟩
  · simp only [velocitySamples, dwaSmall]
    refine List.mem_flatMap.mpr ⟨0, arange_mem_iff.mpr ⟨0, ?_, by norm_num⟩,
      List.mem_map.mpr ⟨0, arange_mem_iff.mpr ⟨10, ?_, by norm_num⟩, rfl⟩⟩
    · norm_num
    · norm_num
  · simp [checkCollision]

/-! ## C8: no safe velocity degenerates to the zero pair -/

/-- C8: when every sampled velocity pair has a colliding rollout, the
selection loop never updates and compute_velocity returns exactly (0, 0),
the initial best pair - indistinguishable from an intentional stop. -/
theorem dwa_no_safe_velocity_returns_zero (p : DWAParams) (pos : Point)
    (θ : ℝ) (goal : Point) (obstacles : List Obstacle)
    (hall : ∀ vw ∈ velocitySamples p,
      checkCollision (predictTrajectory pos θ vw.1 vw.2) obstacles
        = true) :
    computeVelocity p pos θ goal obstacles = (0, 0) := by
  unfold computeVelocity
  rw [dwa_fold_all_collide pos θ goal obstacles _ _ hall]

/-- C8 witness: with a huge obstacle covering every short rollout from the
origin, each sampled pair collides and the result degenerates to (0, 0). -/
theorem dwa_no_safe_velocity_returns_zero_witness :
    computeVelocity dwaSmall ⟨0, 0⟩ 0 ⟨0, 0⟩ [hugeObstacle] = (0, 0) := by
  refine dwa_no_safe_velocity_returns_zero dwaSmall ⟨0, 0⟩ 0 ⟨0, 0⟩
    [hugeObstacle] ?_
  intro vw hvw
  rw [velocitySamples] at hvw
  obtain ⟨v, hv, hmem2⟩ := List.mem_flatMap.mp hvw
  obtain ⟨w, hw, hvweq⟩ := List.mem_map.mp hmem2
  obtain ⟨k, hk, hkv⟩ := arange_mem_iff.mp hv
  have hN : ((⌈((dwaSmall.maxLinearVel + 0.1 - 0) / 0.1 : ℝ)⌉).toNat) = 6 := by
    rw [show ((dwaSmall.maxLinearVel + 0.1 - 0) / 0.1 : ℝ) = ((6 : ℤ) : ℝ)
      by norm_num [dwaSmall], Int.ceil_intCast]
    rfl
  rw [hN] at hk
  have hvb : 0 ≤ v ∧ v ≤ 0.5 := by
    constructor
    · rw [← hkv]
      positivity
    · rw [← hkv]
      have hk5 : (k : ℝ) ≤ 5 := by exact_mod_cast Nat.lt_succ_iff.mp hk
      nlinarith
  have hcontain : hugeObstacle.containsPoint ⟨v * 0.1, 0⟩ = true := by
    rw [Obstacle.containsPoint, decide_eq_true_eq]
    show Real.sqrt (((0 : ℝ) - v * 0.1) ^ 2 + ((0 : ℝ) - 0) ^ 2) ≤ 1000
    have h1 : ((0 : ℝ) - v * 0.1) ^ 2 + ((0 : ℝ) - 0) ^ 2 ≤ 1000 ^ 2 := by
      nlinarith [hvb.1, hvb.2]
    calc Real.sqrt (((0 : ℝ) - v * 0.1) ^ 2 + ((0 : ℝ) - 0) ^ 2)
        ≤ Real.sqrt (1000 ^ 2) := Real.sqrt_le_sqrt h1
      _ = 1000 := Real.sqrt_sq (by norm_num)
  rw [← hvweq]
  rw [predictTrajectory, show (10 : ℕ) = 9 + 1 from rfl,
    predictTrajectoryAux_succ]
  simp only [checkCollision, List.any_cons, Bool.or_eq_true]
  left
  simp [Real.cos_zero, Real.sin_zero, hcontain]

/-! ## Association list lemmas -/

theorem alookup_ainsert_self {ν : Type} (l : List ((ℤ × ℤ) × ν))
    (k : ℤ × ℤ) (v : ν) : alookup (ainsert l k v) k = some v := by
  simp [ainsert, alookup]

theorem alookup_filter_ne {ν : Type} (l : List ((ℤ × ℤ) × ν))
    (k k' : ℤ × ℤ) (h : k' ≠ k) :
    alookup (l.filter fun p => decide (p.1 ≠ k)) k' = alookup l k' := by
  induction l with
  | nil => rfl
  | cons p rest ih =>
      rw [List.filter_cons]
      by_cases hp : p.1 = k
      · rw [if_neg (by simp [hp]), ih, alookup,
          if_neg fun hk => h (hk.trans hp)]
      · rw [if_pos (by simp [hp]), alookup, alookup]
        by_cases hk' : k' = p.1
        · rw [if_pos hk', if_pos hk']
        · rw [if_neg hk', if_neg hk', ih]

theorem alookup_ainsert_ne {ν : Type} (l : List ((ℤ × ℤ) × ν))
    (k k' : ℤ × ℤ) (v : ν) (h : k' ≠ k) :
    alookup (ainsert l k v) k' = alookup l k' := by
  rw [ainsert, alookup, if_neg h, alookup_filter_ne _ _ _ h]

theorem alookup_ainsert_isSome {ν : Type} {l : List ((ℤ × ℤ) × ν)}
    {k' : ℤ × ℤ} (k : ℤ × ℤ) (v : ν) (h : (alookup l k').isSome) :
    (alookup (ainsert l k v) k').isSome := by
  by_cases hk : k' = k
  · subst hk
    rw [alookup_ainsert_self]
    rfl
  · rw [alookup_ainsert_ne _ _ _ _ hk]
    exact h

theorem alookup_isSome_iff_mem {ν : Type} (l : List ((ℤ × ℤ) × ν))
    (k : ℤ × ℤ) : (alookup l k).isSome ↔ k ∈ l.map Prod.fst := by
  induction l with
  | nil => simp [alookup]
  | cons p rest ih =>
      by_cases hk : k = p.1 <;> simp [alookup, hk, ih]

/-! ## Pop-minimum lemmas -/

theorem popMinAux_fst_mem (best : ℝ × (ℤ × ℤ)) (l : List (ℝ × (ℤ × ℤ))) :
    (popMinAux best l).1 = best ∨ (popMinAux best l).1 ∈ l := by
  induction l generalizing best with
  | nil => left; rfl
  | cons e rest ih =>
      rw [popMinAux]
      by_cases hc : entryLt e best
      · rw [if_pos hc]
        rcases ih e with h | h
        · right
          simp [h]
        · right
          simp [h]
      · rw [if_neg hc]
        rcases ih best with h | h
        · left
          exact h
        · right
          simp [h]

theorem popMinAux_snd_mem (best : ℝ × (ℤ × ℤ)) (l : List (ℝ × (ℤ × ℤ))) :
    ∀ x ∈ (popMinAux best l).2, x = best ∨ x ∈ l := by
  induction l generalizing best with
  | nil => simp [popMinAux]
  | cons e rest ih =>
      intro x hx
      rw [popMinAux] at hx
      by_cases hc : entryLt e best
      · rw [if_pos hc] at hx
        rcases List.mem_cons.mp hx with rfl | hx'
        · left; rfl
        · rcases ih e x hx' with rfl | h
          · right
            simp
          · right
            simp [h]
      · rw [if_neg hc] at hx
        rcases List.mem_cons.mp hx with rfl | hx'
        · right
          simp
        · rcases ih best x hx' with rfl | h
          · left; rfl
          · right
            simp [h]

theorem popMin_mem {l : List (ℝ × (ℤ × ℤ))} {e : ℝ × (ℤ × ℤ)}
    {rest : List (ℝ × (ℤ × ℤ))} (h : popMin l = some (e, rest)) :
    e ∈ l ∧ ∀ x ∈ rest, x ∈ l := by
  cases l with
  | nil => simp [popMin] at h
  | cons a t =>
      rw [popMin, Option.some_inj] at h
      constructor
      · have hf := popMinAux_fst_mem a t
        rw [h] at hf
        exact List.mem_cons.mpr hf
      · intro x hx
        have hx' : x ∈ (popMinAux a t).2 := by
          rw [h]
          exact hx
        exact List.mem_cons.mpr (popMinAux_snd_mem a t x hx')

/-! ## Neighbour and distance lemmas -/

theorem getNeighbors_ne (g : Grid) (c : ℤ × ℤ) :
    ∀ nb ∈ getNeighbors g c, nb ≠ c := by
  intro nb hnb
  simp only [getNeighbors, List.mem_filterMap, List.mem_filter] at hnb
  obtain ⟨d, ⟨_, hd2⟩, hd3⟩ := hnb
  by_cases hv : g.isValidGrid (c.1 + d.1) (c.2 + d.2)
  · rw [if_pos hv, Option.some_inj] at hd3
    intro hc
    rw [← hd3] at hc
    have h1 : d.1 = 0 := by
      have := congrArg Prod.fst hc
      simpa using this
    have h2 : d.2 = 0 := by
      have := congrArg Prod.snd hc
      simpa using this
    simp [h1, h2] at hd2
  · rw [if_neg hv] at hd3
    cases hd3

theorem cellDist_pos {p q : ℤ × ℤ} (h : p ≠ q) : 0 < cellDist p q := by
  rw [cellDist]
  apply Real.sqrt_pos.mpr
  have hne : p.1 ≠ q.1 ∨ p.2 ≠ q.2 := by
    by_contra hcon
    push_neg at hcon
    exact h (Prod.ext hcon.1 hcon.2)
  rcases hne with hne | hne
  · have h1 : ((p.1 : ℝ) - (q.1 : ℝ)) ≠ 0 := by
      rw [sub_ne_zero]
      exact_mod_cast hne
    have := pow_two_pos_of_ne_zero h1
    nlinarith [sq_nonneg ((p.2 : ℝ) - (q.2 : ℝ))]
  · have h1 : ((p.2 : ℝ) - (q.2 : ℝ)) ≠ 0 := by
      rw [sub_ne_zero]
      exact_mod_cast hne
    have := pow_two_pos_of_ne_zero h1
    nlinarith [sq_nonneg ((p.1 : ℝ) - (q.1 : ℝ))]

/-! ## Path reconstruction lemmas -/

theorem reconstructAux_ne_nil (fuel : ℕ) (cf : List ((ℤ × ℤ) × (ℤ × ℤ)))
    (current : ℤ × ℤ) : reconstructAux fuel cf current ≠ [] := by
  cases fuel with
  | zero => simp [reconstructAux]
  | succ fuel =>
      rcases h : alookup cf current with _ | p <;>
        simp [reconstructAux, h]

theorem reconstructAux_head (fuel : ℕ) (cf : List ((ℤ × ℤ) × (ℤ × ℤ)))
    (current : ℤ × ℤ) :
    (reconstructAux fuel cf current).head? = some current := by
  cases fuel with
  | zero => rfl
  | succ fuel =>
      rcases h : alookup cf current with _ | p <;>
        simp [reconstructAux, h]

theorem reconstructAux_mem_gScore (cf : List ((ℤ × ℤ) × (ℤ × ℤ)))
    (gs : List ((ℤ × ℤ) × ℝ))
    (hpar : ∀ n p, alookup cf n = some p → (alookup gs p).isSome) :
    ∀ (fuel : ℕ) (current : ℤ × ℤ), (alookup gs current).isSome →
      ∀ c ∈ reconstructAux fuel cf current, (alookup gs c).isSome := by
  intro fuel
  induction fuel with
  | zero =>
      intro current hcur c hc
      simp only [reconstructAux, List.mem_singleton] at hc
      subst hc
      exact hcur
  | succ fuel ih =>
      intro current hcur c hc
      rcases h : alookup cf current with _ | p
      · simp only [reconstructAux, h, List.mem_singleton] at hc
        subst hc
        exact hcur
      · simp only [reconstructAux, h] at hc
        rcases List.mem_cons.mp hc with rfl | hc'
        · exact hcur
        · exact ih p (hpar current p h) c hc'

theorem reconstructAux_last (cf : List ((ℤ × ℤ) × (ℤ × ℤ)))
    (gs : List ((ℤ × ℤ) × ℝ)) (start : ℤ × ℤ)
    (hcfLt : ∀ n p, alookup cf n = some p →
      ∃ gn gp, alookup gs n = some gn ∧ alookup gs p = some gp ∧ gp < gn)
    (hcfParent : ∀ n p, alookup cf n = some p →
      p = start ∨ (alookup cf p).isSome) :
    ∀ (fuel : ℕ) (current : ℤ × ℤ),
      (current = start ∨ (alookup cf current).isSome) →
      (((cf.map Prod.fst).toFinset.filter
          (fun k => (alookup gs k).getD 0 < (alookup gs current).getD 0)).card
        < fuel ∨ alookup cf current = none) →
      (reconstructAux fuel cf current).getLast? = some start := by
  intro fuel
  induction fuel with
  | zero =>
      intro current hcur hm
      rcases hm with hm | hm
      · omega
      · rcases hcur with rfl | hsome
        · rfl
        · rw [hm] at hsome
          simp at hsome
  | succ fuel ih =>
      intro current hcur hm
      rcases hl : alookup cf current with _ | p
      · rcases hcur with rfl | hsome
        · simp [reconstructAux, hl]
        · rw [hl] at hsome
          simp at hsome
      · simp only [reconstructAux, hl]
        obtain ⟨b, t, hbt⟩ :=
          List.exists_cons_of_ne_nil (reconstructAux_ne_nil fuel cf p)
        rw [hbt, List.getLast?_cons_cons, ← hbt]
        refine ih p (hcfParent current p hl) ?_
        rcases hq : alookup cf p with _ | q
        · exact Or.inr rfl
        · left
          obtain ⟨gn, gp, hgn, hgp, hlt⟩ := hcfLt current p hl
          rcases hm with hm | hm
          swap
          · rw [hm] at hl
            cases hl
          have hgpD : (alookup gs p).getD 0 = gp := by
            rw [hgp]
            rfl
          have hgnD : (alookup gs current).getD 0 = gn := by
            rw [hgn]
            rfl
          have hsubset : ((cf.map Prod.fst).toFinset.filter
              (fun k => (alookup gs k).getD 0 < (alookup gs p).getD 0)) ⊆
              ((cf.map Prod.fst).toFinset.filter
              (fun k => (alookup gs k).getD 0 <
                (alookup gs current).getD 0)) := by
            intro k hk
            rw [Finset.mem_filter] at hk ⊢
            refine ⟨hk.1, ?_⟩
            rw [hgnD]
            rw [hgpD] at hk
            exact lt_trans hk.2 hlt
          have hpmem : p ∈ (cf.map Prod.fst).toFinset := by
            rw [List.mem_toFinset, ← alookup_isSome_iff_mem, hq]
            rfl
          have hpbig : p ∈ ((cf.map Prod.fst).toFinset.filter
              (fun k => (alookup gs k).getD 0 <
                (alookup gs current).getD 0)) := by
            rw [Finset.mem_filter]
            exact ⟨hpmem, by rw [hgpD, hgnD]; exact hlt⟩
          have hpsmall : p ∉ ((cf.map Prod.fst).toFinset.filter
              (fun k => (alookup gs k).getD 0 < (alookup gs p).getD 0)) := by
            rw [Finset.mem_filter]
            rintro ⟨-, hcon⟩
            exact lt_irrefl _ hcon
          have hss := (Finset.ssubset_iff_of_subset hsubset).mpr
            ⟨p, hpbig, hpsmall⟩
          have := Finset.card_lt_card hss
          omega

/-! ## Relaxation-step lemmas -/

theorem relaxNeighbor_cases (g : Grid) (goal current : ℤ × ℤ)
    (st : AStarState) (nb : ℤ × ℤ) :
    relaxNeighbor g goal current st nb = st ∨
    (g.isFree nb.1 nb.2 = true ∧
      (alookup st.gScore nb = none ∨
        ∃ gnb, alookup st.gScore nb = some gnb ∧
          (alookup st.gScore current).getD 0 + cellDist current nb < gnb) ∧
      relaxNeighbor g goal current st nb =
        { openSet := ((alookup st.gScore current).getD 0 +
            cellDist current nb + cellDist nb goal, nb) :: st.openSet
          cameFrom := ainsert st.cameFrom nb current
          gScore := ainsert st.gScore nb
            ((alookup st.gScore current).getD 0 + cellDist current nb)
          fScore := ainsert st.fScore nb
            ((alookup st.gScore current).getD 0 + cellDist current nb +
              cellDist nb goal) }) := by
  by_cases hfree : g.isFree nb.1 nb.2 = true
  · rcases hlk : alookup st.gScore nb with _ | gnb
    · right
      refine ⟨hfree, Or.inl rfl, ?_⟩
      rw [relaxNeighbor, if_neg (by simp [hfree])]
      simp [hlk]
    · by_cases hlt : (alookup st.gScore current).getD 0 +
          cellDist current nb < gnb
      · right
        refine ⟨hfree, Or.inr ⟨gnb, rfl, hlt⟩, ?_⟩
        rw [relaxNeighbor, if_neg (by simp [hfree])]
        simp [hlk, hlt]
      · left
        rw [relaxNeighbor, if_neg (by simp [hfree])]
        simp [hlk, hlt]
  · left
    rw [relaxNeighbor, if_pos (by simp [hfree])]

theorem relaxNeighbor_inv {g : Grid} {start : ℤ × ℤ} (goal current : ℤ × ℤ)
    {st : AStarState} (nb : ℤ × ℤ)
    (hinv : AStarInv g start st)
    (hcur : (alookup st.gScore current).isSome)
    (hcurpar : current = start ∨ (alookup st.cameFrom current).isSome)
    (hne : nb ≠ current) :
    AStarInv g start (relaxNeighbor g goal current st nb) ∧
    alookup (relaxNeighbor g goal current st nb).gScore current
      = alookup st.gScore current ∧
    ∀ c : ℤ × ℤ, (alookup st.cameFrom c).isSome →
      (alookup (relaxNeighbor g goal current st nb).cameFrom c).isSome := by
  rcases relaxNeighbor_cases g goal current st nb with heq | ⟨hfree, hupd, heq⟩
  · rw [heq]
    exact ⟨hinv, rfl, fun _ hc => hc⟩
  · obtain ⟨gc, hgc⟩ := Option.isSome_iff_exists.mp hcur
    have hgcD : (alookup st.gScore current).getD 0 = gc := by
      rw [hgc]
      rfl
    have hdist : 0 < cellDist current nb := cellDist_pos (Ne.symm hne)
    have hgc0 : 0 ≤ gc := hinv.gNonneg current gc hgc
    have htent : 0 < (alookup st.gScore current).getD 0 +
        cellDist current nb := by
      rw [hgcD]
      linarith
    have hnbstart : nb ≠ start := by
      intro hns
      subst hns
      rcases hupd with hnone | ⟨gnb, hsome, hlt⟩
      · rw [hinv.startG] at hnone
        cases hnone
      · rw [hinv.startG] at hsome
        injection hsome with hsome
        rw [← hsome] at hlt
        linarith
    rw [heq]
    refine ⟨?_, ?_, ?_⟩
    · refine
        { openG := ?_, startG := ?_, startCF := ?_, gNonneg := ?_,
          cfLt := ?_, cfParent := ?_, openParent := ?_, freeG := ?_ }
      · intro e he
        rcases List.mem_cons.mp he with rfl | he'
        · rw [alookup_ainsert_self]
          rfl
        · exact alookup_ainsert_isSome _ _ (hinv.openG e he')
      · rw [alookup_ainsert_ne _ _ _ _ (Ne.symm hnbstart)]
        exact hinv.startG
      · rw [alookup_ainsert_ne _ _ _ _ (Ne.symm hnbstart)]
        exact hinv.startCF
      · intro c v hcv
        by_cases hc : c = nb
        · subst hc
          rw [alookup_ainsert_self, Option.some_inj] at hcv
          rw [← hcv]
          exact le_of_lt htent
        · rw [alookup_ainsert_ne _ _ _ _ hc] at hcv
          exact hinv.gNonneg c v hcv
      · intro n p hnp
        by_cases hn : n = nb
        · subst hn
          rw [alookup_ainsert_self, Option.some_inj] at hnp
          refine ⟨(alookup st.gScore current).getD 0 + cellDist current n,
            gc, alookup_ainsert_self _ _ _, ?_, ?_⟩
          · rw [← hnp, alookup_ainsert_ne _ _ _ _ (Ne.symm hne)]
            exact hgc
          · rw [hgcD]
            linarith
        · rw [alookup_ainsert_ne _ _ _ _ hn] at hnp
          obtain ⟨gn, gp, hgn, hgp, hlt⟩ := hinv.cfLt n p hnp
          by_cases hp : p = nb
          · subst hp
            rcases hupd with hnone | ⟨gnb, hsome, htlt⟩
            · rw [hnone] at hgp
              cases hgp
            · rw [hsome, Option.some_inj] at hgp
              refine ⟨gn, (alookup st.gScore current).getD 0 +
                cellDist current p, ?_, alookup_ainsert_self _ _ _, ?_⟩
              · rw [alookup_ainsert_ne _ _ _ _ hn]
                exact hgn
              · rw [hgp] at htlt
                exact lt_trans htlt hlt
          · refine ⟨gn, gp, ?_, ?_, hlt⟩
            · rw [alookup_ainsert_ne _ _ _ _ hn]
              exact hgn
            · rw [alookup_ainsert_ne _ _ _ _ hp]
              exact hgp
      · intro n p hnp
        by_cases hn : n = nb
        · subst hn
          rw [alookup_ainsert_self, Option.some_inj] at hnp
          rw [← hnp]
          rcases hcurpar with h | h
          · exact Or.inl h
          · exact Or.inr (alookup_ainsert_isSome _ _ h)
        · rw [alookup_ainsert_ne _ _ _ _ hn] at hnp
          rcases hinv.cfParent n p hnp with h | h
          · exact Or.inl h
          · exact Or.inr (alookup_ainsert_isSome _ _ h)
      · intro e he
        rcases List.mem_cons.mp he with rfl | he'
        · right
          rw [alookup_ainsert_self]
          rfl
        · rcases hinv.openParent e he' with h | h
          · exact Or.inl h
          · exact Or.inr (alookup_ainsert_isSome _ _ h)
      · intro c hc
        by_cases hcb : c = nb
        · subst hcb
          exact hfree
        · rw [alookup_ainsert_ne _ _ _ _ hcb] at hc
          exact hinv.freeG c hc
    · rw [alookup_ainsert_ne _ _ _ _ (Ne.symm hne)]
    · intro c hc
      exact alookup_ainsert_isSome _ _ hc

theorem relaxFold_inv {g : Grid} {start : ℤ × ℤ} (goal current : ℤ × ℤ)
    (nbs : List (ℤ × ℤ)) (hnbs : ∀ nb ∈ nbs, nb ≠ current) :
    ∀ st : AStarState, AStarInv g start st →
      (alookup st.gScore current).isSome →
      (current = start ∨ (alookup st.cameFrom current).isSome) →
      AStarInv g start (nbs.foldl (relaxNeighbor g goal current) st) := by
  induction nbs with
  | nil => exact fun st hinv _ _ => hinv
  | cons nb rest ih =>
      intro st hinv hcur hcurpar
      rw [List.foldl_cons]
      obtain ⟨hinv', hg', hcf'⟩ := relaxNeighbor_inv goal current nb hinv
        hcur hcurpar (hnbs nb (by simp))
      refine ih (fun x hx => hnbs x (by simp [hx])) _ hinv' ?_ ?_
      · rw [hg']
        exact hcur
      · rcases hcurpar with h | h
        · exact Or.inl h
        · exact Or.inr (hcf' current h)

theorem AStarInv.withOpen {g : Grid} {start : ℤ × ℤ} {st : AStarState}
    (hinv : AStarInv g start st) (open' : List (ℝ × (ℤ × ℤ)))
    (hsub : ∀ e ∈ open', e ∈ st.openSet) :
    AStarInv g start { st with openSet := open' } :=
  { openG := fun e he => hinv.openG e (hsub e he)
    startG := hinv.startG
    startCF := hinv.startCF
    gNonneg := hinv.gNonneg
    cfLt := hinv.cfLt
    cfParent := hinv.cfParent
    openParent := fun e he => hinv.openParent e (hsub e he)
    freeG := hinv.freeG }

/-! ## A* main loop specification -/

theorem aStarLoop_spec (g : Grid) (start goal : ℤ × ℤ) :
    ∀ (fuel : ℕ) (st : AStarState), AStarInv g start st →
      aStarLoop g goal fuel st = [] ∨
      ∃ cells : List (ℤ × ℤ), aStarLoop g goal fuel st = cells.reverse ∧
        cells.head? = some goal ∧ cells.getLast? = some start ∧
        ∀ c ∈ cells, g.isFree c.1 c.2 = true := by
  intro fuel
  induction fuel with
  | zero => exact fun st _ => Or.inl rfl
  | succ fuel ih =>
      intro st hinv
      rcases hpop : popMin st.openSet with _ | ⟨e, rest⟩
      · left
        simp [aStarLoop, hpop]
      · have hmem := popMin_mem hpop
        by_cases hgoal : e.2 = goal
        · right
          refine ⟨reconstructAux st.cameFrom.length st.cameFrom e.2,
            ?_, ?_, ?_, ?_⟩
          · simp only [aStarLoop, hpop]
            rw [if_pos hgoal]
          · rw [reconstructAux_head, hgoal]
          · apply reconstructAux_last st.cameFrom st.gScore start hinv.cfLt
              hinv.cfParent
            · exact hinv.openParent e hmem.1
            · rcases hcf : alookup st.cameFrom e.2 with _ | p
              · exact Or.inr rfl
              · left
                have hkey : e.2 ∈ (st.cameFrom.map Prod.fst).toFinset := by
                  rw [List.mem_toFinset, ← alookup_isSome_iff_mem, hcf]
                  rfl
                have hsub2 := Finset.filter_subset
                  (fun k => (alookup st.gScore k).getD 0 <
                    (alookup st.gScore e.2).getD 0)
                  (st.cameFrom.map Prod.fst).toFinset
                have hnotmem : e.2 ∉ (st.cameFrom.map Prod.fst).toFinset.filter
                    (fun k => (alookup st.gScore k).getD 0 <
                      (alookup st.gScore e.2).getD 0) := by
                  rw [Finset.mem_filter]
                  rintro ⟨-, hcon⟩
                  exact lt_irrefl _ hcon
                have hss := (Finset.ssubset_iff_of_subset hsub2).mpr
                  ⟨e.2, hkey, hnotmem⟩
                have hcard := Finset.card_lt_card hss
                have hlen : (st.cameFrom.map Prod.fst).toFinset.card ≤
                    st.cameFrom.length := by
                  refine le_trans (List.toFinset_card_le _) ?_
                  simp
                omega
          · intro c hc
            apply hinv.freeG
            refine reconstructAux_mem_gScore st.cameFrom st.gScore ?_ _ e.2
              ?_ c hc
            · intro n p hnp
              obtain ⟨gn, gp, hgn, hgp, _⟩ := hinv.cfLt n p hnp
              rw [hgp]
              rfl
            · exact hinv.openG e hmem.1
        · have hinv1 := hinv.withOpen rest hmem.2
          have hgsome : (alookup st.gScore e.2).isSome :=
            hinv.openG e hmem.1
          have hpar : e.2 = start ∨ (alookup st.cameFrom e.2).isSome :=
            hinv.openParent e hmem.1
          have hinv2 := relaxFold_inv goal e.2 (getNeighbors g e.2)
            (getNeighbors_ne g e.2) _ hinv1 hgsome hpar
          rcases ih _ hinv2 with h | h
          · left
            simp only [aStarLoop, hpop]
            rw [if_neg hgoal]
            exact h
          · right
            obtain ⟨cells, hc1, hc2, hc3, hc4⟩ := h
            refine ⟨cells, ?_, hc2, hc3, hc4⟩
            simp only [aStarLoop, hpop]
            rw [if_neg hgoal]
            exact hc1

theorem planPathCells_spec (g : Grid) (s t : ℤ × ℤ) (n : ℕ) :
    (g.isFree s.1 s.2 = false → planPathCells g s t n = []) ∧
    (g.isFree t.1 t.2 = false → planPathCells g s t n = []) ∧
    (planPathCells g s t n = [] ∨
      ((planPathCells g s t n).head? = some s ∧
        (planPathCells g s t n).getLast? = some t)) ∧
    (∀ c ∈ planPathCells g s t n, g.isFree c.1 c.2 = true) := by
  by_cases hs : g.isFree s.1 s.2 = true
  case neg =>
    have hempty : planPathCells g s t n = [] := by
      rw [planPathCells, if_pos hs]
    rw [hempty]
    simp
  case pos =>
    by_cases ht : g.isFree t.1 t.2 = true
    case neg =>
      have hempty : planPathCells g s t n = [] := by
        rw [planPathCells]
        by_cases hs2 : ¬ g.isFree s.1 s.2
        · rw [if_pos hs2]
        · rw [if_neg hs2, if_pos ht]
      rw [hempty]
      simp
    case pos =>
      have hinv0 : AStarInv g s
          { openSet := [(0, s)], cameFrom := [], gScore := [(s, 0)],
            fScore := [(s, cellDist s t)] } := by
        refine
          { openG := ?_, startG := ?_, startCF := ?_, gNonneg := ?_,
            cfLt := ?_, cfParent := ?_, openParent := ?_, freeG := ?_ }
        · intro e he
          rw [List.mem_singleton] at he
          subst he
          simp [alookup]
        · simp [alookup]
        · rfl
        · intro c v hcv
          by_cases hc : c = s
          · subst hc
            simp [alookup] at hcv
            linarith [hcv]
          · simp only [alookup, if_neg hc] at hcv
            cases hcv
        · intro nn p hnp
          cases hnp
        · intro nn p hnp
          cases hnp
        · intro e he
          rw [List.mem_singleton] at he
          subst he
          exact Or.inl rfl
        · intro c hc
          by_cases hcs : c = s
          · subst hcs
            exact hs
          · simp only [alookup, if_neg hcs] at hc
            cases hc
      have hspec := aStarLoop_spec g s t n _ hinv0
      have hreduce : planPathCells g s t n = aStarLoop g t n
          { openSet := [(0, s)], cameFrom := [], gScore := [(s, 0)],
            fScore := [(s, cellDist s t)] } := by
        rw [planPathCells, if_neg (by simp [hs]), if_neg (by simp [ht])]
      refine ⟨?_, ?_, ?_, ?_⟩
      · intro hcon
        rw [hs] at hcon
        cases hcon
      · intro hcon
        rw [ht] at hcon
        cases hcon
      · rcases hspec with h | ⟨cells, hc1, hc2, hc3, hc4⟩
        · left
          rw [hreduce, h]
        · right
          rw [hreduce, hc1]
          constructor
          · rw [List.head?_reverse]
            exact hc3
          · rw [List.getLast?_reverse]
            exact hc2
      · intro c hc
        rw [hreduce] at hc
        rcases hspec with h | ⟨cells, hc1, hc2, hc3, hc4⟩
        · rw [h] at hc
          cases hc
        · rw [hc1] at hc
          exact hc4 c (List.mem_reverse.mp hc)

/-! ## C7: A* failure modes and path endpoints -/

/-- C7: plan_path returns the empty path when the start cell is occupied or
when the goal cell is occupied; every run either returns the empty path -
which is what the fuelled loop produces whenever the iteration budget or
the open set is exhausted before the goal cell is popped - or a non-empty
path that begins at the start cell and ends at the goal cell (as the world
coordinates of those cells). -/
theorem astar_failure_and_endpoints (g : Grid) (start goal : Point)
    (maxIterations : ℕ) :
    (g.isFree (g.worldToGrid start).1 (g.worldToGrid start).2 = false →
      planPath g start goal maxIterations = []) ∧
    (g.isFree (g.worldToGrid goal).1 (g.worldToGrid goal).2 = false →
      planPath g start goal maxIterations = []) ∧
    (planPath g start goal maxIterations = [] ∨
      ((planPath g start goal maxIterations).head? =
          some (g.gridToWorld (g.worldToGrid start).1
            (g.worldToGrid start).2) ∧
        (planPath g start goal maxIterations).getLast? =
          some (g.gridToWorld (g.worldToGrid goal).1
            (g.worldToGrid goal).2))) := by
  obtain ⟨h1, h2, h3, -⟩ := planPathCells_spec g (g.worldToGrid start)
    (g.worldToGrid goal) maxIterations
  refine ⟨?_, ?_, ?_⟩
  · intro h
    rw [planPath, h1 h]
    rfl
  · intro h
    rw [planPath, h2 h]
    rfl
  · rcases h3 with h | ⟨hh, hl⟩
    · left
      rw [planPath, h]
      rfl
    · right
      rw [planPath]
      constructor
      · rw [List.head?_map, hh]
        rfl
      · rw [List.getLast?_map, hl]
        rfl

theorem gridOcc_isFree_false (x y : ℤ) : gridOcc.isFree x y = false := by
  rw [Grid.isFree]
  by_cases hv : gridOcc.isValidGrid x y
  · rw [if_pos hv]
    exact decide_eq_false (by norm_num [gridOcc])
  · rw [if_neg hv]

/-- C7 witness: on a fully occupied grid the start cell is occupied and
plan_path returns the empty path. -/
theorem astar_failure_witness :
    planPath gridOcc ⟨0, 0⟩ ⟨0, 0⟩ 1000 = [] :=
  (astar_failure_and_endpoints gridOcc ⟨0, 0⟩ ⟨0, 0⟩ 1000).1
    (gridOcc_isFree_false _ _)

/-! ## C10: out-of-bounds cells are occupied; paths stay in bounds -/

/-- C10: out-of-bounds cells are never free, and every cell of every path
returned by the A* planner lies inside the grid bounds. -/
theorem grid_bounds_safety (g : Grid) (s t : ℤ × ℤ) (n : ℕ) :
    (∀ gx gy : ℤ,
      ¬(0 ≤ gx ∧ gx < g.gridWidth ∧ 0 ≤ gy ∧ gy < g.gridHeight) →
      g.isFree gx gy = false) ∧
    (∀ c ∈ planPathCells g s t n, g.isValidGrid c.1 c.2 = true) := by
  constructor
  · intro gx gy hb
    rw [Grid.isFree, if_neg]
    intro hv
    apply hb
    rw [Grid.isValidGrid] at hv
    simp only [Bool.and_eq_true, decide_eq_true_eq] at hv
    exact ⟨hv.1.1.1, hv.1.1.2, hv.1.2, hv.2⟩
  · intro c hc
    have hfree := (planPathCells_spec g s t n).2.2.2 c hc
    rw [Grid.isFree] at hfree
    by_cases hv : g.isValidGrid c.1 c.2
    · exact hv
    · rw [if_neg hv] at hfree
      cases hfree

theorem gridFree_gridWidth : gridFree.gridWidth = 1 := by
  rw [Grid.gridWidth, show gridFree.width / gridFree.resolution = (1 : ℝ)
    by norm_num [gridFree], truncToInt, if_pos (by norm_num)]
  exact Int.floor_one

theorem gridFree_gridHeight : gridFree.gridHeight = 1 := by
  rw [Grid.gridHeight, show gridFree.height / gridFree.resolution = (1 : ℝ)
    by norm_num [gridFree], truncToInt, if_pos (by norm_num)]
  exact Int.floor_one

theorem gridFree_isValid : gridFree.isValidGrid 0 0 = true := by
  rw [Grid.isValidGrid, gridFree_gridWidth, gridFree_gridHeight]
  rfl

theorem gridFree_isFree : gridFree.isFree 0 0 = true := by
  rw [Grid.isFree, if_pos (by rw [gridFree_isValid])]
  exact decide_eq_true (by norm_num [gridFree])

theorem planPathCells_gridFree :
    planPathCells gridFree (0, 0) (0, 0) 1 = [(0, 0)] := by
  rw [planPathCells, if_neg (by simp [gridFree_isFree]),
    if_neg (by simp [gridFree_isFree])]
  rw [show (1 : ℕ) = 0 + 1 from rfl]
  simp [aStarLoop, popMin, popMinAux, reconstructAux]

/-- C10 witness: on a concrete 1x1 grid, the out-of-bounds cell (5, 0) is
not free, and the single cell of a concrete planned path is in bounds. -/
theorem grid_bounds_safety_witness :
    gridFree.isFree 5 0 = false ∧ gridFree.isValidGrid 0 0 = true := by
  refine ⟨(grid_bounds_safety gridFree (0, 0) (0, 0) 1).1 5 0 ?_,
    (grid_bounds_safety gridFree (0, 0) (0, 0) 1).2 (0, 0) ?_⟩
  · rintro ⟨-, h5, -⟩
    rw [gridFree_gridWidth] at h5
    omega
  · rw [planPathCells_gridFree]
    simp

end RobotCore
